import Mathlib

/-!
# PrintSpider nozzle-actuation pipeline (`main/printspider_main.c`)

A shallow embedding of the row encoders, the waveform selector and the print
loop of `printspider_main.c`, with the properties of the pipeline proved over
it.

Conventions of the embedding

* C `int` values are `Int` (signed overflow is undefined behaviour in C and is
  not modelled); `uint8_t` values are `Nat` reduced `% 256` where a value is
  converted to `uint8_t`.
* `rand()` is a sequence of non-negative draws `Nat → Nat` together with the
  number of calls made so far, kept in the `World`.
* Calls that leave the file (`printspider_fire_nozzle_*`, `xQueueSend`,
  `printspider_select_waveform`, `vTaskDelay`, `i2s_parallel_*`) and reads of
  the mode flag are recorded, in program order, in the `trace` of the `World`.
* A local buffer is allocated in the `stack` of the `World`: it starts with
  whatever content the stack has, and its final content stays there when the
  function returns.
* `ESP_LOGI` calls have no effect on the state and are left out.
-/

namespace PrintSpider

/-! ## Data model -/

/-- A nozzle data buffer: `uint8_t nozdata[PRINTSPIDER_NOZDATA_SZ]`, one `Nat` per byte. -/
abbrev Frame := List Nat

/-- Declarations of `printspider_genwaveform.h` and of the FreeRTOS configuration that
`printspider_main.c` uses and that are not part of the source tree: the size and geometry constants,
the waveform identifiers and the two functions that set a nozzle bit in a buffer. -/
structure Printspider where
  PRINTSPIDER_NOZDATA_SZ : Nat
  PRINTSPIDER_COLOR_NOZZLES_IN_ROW : Nat
  PRINTSPIDER_COLOR_ROW_OFFSET : Int
  PRINTSPIDER_COLOR_VERTICAL_OFFSET : Int
  PRINTSPIDER_BLACK_NOZZLES_IN_ROW : Nat
  PRINTSPIDER_BLACK_ROW_OFFSET : Int
  PRINTSPIDER_WAVEFORM_COLOR_B : Int
  PRINTSPIDER_WAVEFORM_BLACK_B : Int
  portTICK_PERIOD_MS : Nat
  printspider_fire_nozzle_color : Frame → Int → Int → Frame
  printspider_fire_nozzle_black : Frame → Int → Int → Frame

/-- A pixel source, `uint8_t image_get_pixel(int x, int y, int color)`. -/
abbrev PixelSource := Int → Int → Int → Nat

/-- Calls leaving `printspider_main.c`, and reads of the mode flag, in program order. -/
inductive Event where
  | read_image_color (value : Bool)
  | select_waveform (id : Int)
  | fire_nozzle_color (p : Int) (c : Int)
  | fire_nozzle_black (p : Int) (row : Int)
  | queue_send (frame : Frame)
  | task_delay (ticks : Nat)
  | i2s_parallel_setup (clkspeed_hz : Nat) (bufsz : Nat)
  | i2s_parallel_start
  deriving DecidableEq, Repr

/-- The state the functions of `printspider_main.c` act on. -/
structure World where
  /-- The mode flag `static bool image_color`. -/
  image_color : Bool
  /-- Number of `rand()` calls made so far. -/
  rand_calls : Nat
  /-- The waveform most recently handed to `printspider_select_waveform`, if any. -/
  waveform : Option Int
  /-- Content of the stack memory a local buffer is allocated in. -/
  stack : List Nat
  /-- The calls made so far. -/
  trace : List Event
  deriving DecidableEq, Repr

/-- The value `ESP_OK` of `esp_err.h`. -/
def ESP_OK : Int := 0

/-! ## Library functions -/

/-- An uninitialised local array of `n` bytes: it holds whatever the stack holds. -/
def local_array (stack : List Nat) (n : Nat) : Frame :=
  (List.range n).map fun i => stack.getD i 0

/-- The call `memset(buf, val, n)` on a byte buffer. -/
def memset (buf : Frame) (val : Nat) (n : Nat) : Frame :=
  List.replicate n (val % 256) ++ buf.drop n

/-- The call `rand()`: the next draw of the sequence. -/
def rand (draws : Nat → Nat) (w : World) : Nat × World :=
  (draws w.rand_calls, { w with rand_calls := w.rand_calls + 1 })

/-- The call `xQueueSend(nozdata_queue, nozdata, portMAX_DELAY)`, seen from the sending task: the
call returns once the buffer has been copied into the queue. -/
def xQueueSend (nozdata : Frame) (w : World) : World :=
  { w with trace := w.trace ++ [Event.queue_send nozdata] }

/-- The call `vTaskDelay(ticks)`. -/
def vTaskDelay (ticks : Nat) (w : World) : World :=
  { w with trace := w.trace ++ [Event.task_delay ticks] }

/-- Reading the mode flag `image_color`. -/
def read_image_color (w : World) : Bool × World :=
  (w.image_color, { w with trace := w.trace ++ [Event.read_image_color w.image_color] })

/-- Modelled from the spec: `printspider_select_waveform`, defined outside `printspider_main.c`,
communicates the selected waveform profile identifier to the waveform subsystem; the identifier
handed over becomes the selected profile. -/
def printspider_select_waveform (id : Int) (w : World) : World :=
  { w with waveform := some id, trace := w.trace ++ [Event.select_waveform id] }

/-! ## `printspider_main.c` -/

/-- The function `select_waveform` (lines 40-49). -/
def select_waveform (hw : Printspider) (w : World) : Int × World :=
  let (flag, w) := read_image_color w
  if flag then
    (ESP_OK, printspider_select_waveform hw.PRINTSPIDER_WAVEFORM_COLOR_B w)
  else
    (ESP_OK, printspider_select_waveform hw.PRINTSPIDER_WAVEFORM_BLACK_B w)

/-- The pixel source of the file (lines 91-93): a constant pixel. -/
def image_get_pixel : PixelSource := fun _ _ _ => 0x7f

/-- The dither test of lines 106-108 for a pixel value `v` and a draw `r`:
`v=255-v; if (v>(rand()&255))`. -/
def dither_fires (v : Nat) (r : Nat) : Bool :=
  decide ((255 - v % 256) % 256 > (r &&& 255))

/-- Body of the inner loop of `send_image_row_color` (lines 103-111). -/
def color_step (hw : Printspider) (img : PixelSource) (draws : Nat → Nat) (pos : Int) (c : Nat)
    (s : Frame × World) (y : Nat) : Frame × World :=
  let v := img (pos - (c : Int) * hw.PRINTSPIDER_COLOR_ROW_OFFSET) y c
  let (r, w) := rand draws s.2
  if dither_fires v r then
    (hw.printspider_fire_nozzle_color s.1 ((y : Int) + hw.PRINTSPIDER_COLOR_VERTICAL_OFFSET) c,
      { w with trace := w.trace ++
          [Event.fire_nozzle_color ((y : Int) + hw.PRINTSPIDER_COLOR_VERTICAL_OFFSET) c] })
  else
    (s.1, w)

/-- The function `send_image_row_color` (lines 95-116). -/
def send_image_row_color (hw : Printspider) (img : PixelSource) (draws : Nat → Nat) (pos : Int)
    (w : World) : World :=
  let nozdata := local_array w.stack hw.PRINTSPIDER_NOZDATA_SZ
  let nozdata := memset nozdata 0 hw.PRINTSPIDER_NOZDATA_SZ
  let s := (List.range 3).foldl
    (fun s c => (List.range hw.PRINTSPIDER_COLOR_NOZZLES_IN_ROW).foldl
      (color_step hw img draws pos c) s)
    (nozdata, w)
  let w := xQueueSend s.1 s.2
  { w with stack := s.1 }

/-- The test of lines 124-126: some channel of the pixel at `(x, y)` is not `0xff`. -/
def ink_bearing (img : PixelSource) (x : Int) (y : Nat) : Bool :=
  img x y 0 % 256 != 0xff || img x y 1 % 256 != 0xff || img x y 2 % 256 != 0xff

/-- Body of the inner loop of `send_image_row_black` (lines 124-131). -/
def black_step (hw : Printspider) (img : PixelSource) (draws : Nat → Nat) (pos : Int) (row : Nat)
    (s : Frame × World) (y : Nat) : Frame × World :=
  if ink_bearing img (pos + (row : Int) * hw.PRINTSPIDER_BLACK_ROW_OFFSET) y then
    let (r, w) := rand draws s.2
    if r &&& 1 != 0 then
      (hw.printspider_fire_nozzle_black s.1 y row,
        { w with trace := w.trace ++ [Event.fire_nozzle_black y row] })
    else
      (s.1, w)
  else
    s

/-- The function `send_image_row_black` (lines 118-136). -/
def send_image_row_black (hw : Printspider) (img : PixelSource) (draws : Nat → Nat) (pos : Int)
    (w : World) : World :=
  let nozdata := local_array w.stack hw.PRINTSPIDER_NOZDATA_SZ
  let nozdata := memset nozdata 0 hw.PRINTSPIDER_NOZDATA_SZ
  let s := (List.range 2).foldl
    (fun s row => (List.range hw.PRINTSPIDER_BLACK_NOZZLES_IN_ROW).foldl
      (black_step hw img draws pos row) s)
    (nozdata, w)
  let w := xQueueSend s.1 s.2
  { w with stack := s.1 }

/-- One iteration of the `while(true)` loop of `print_loop` (lines 140-147). -/
def print_loop_iteration (hw : Printspider) (img : PixelSource) (draws : Nat → Nat)
    (w : World) : World :=
  let w := vTaskDelay (3000 / hw.portTICK_PERIOD_MS) w
  let (flag, w) := read_image_color w
  if flag then
    send_image_row_color hw img draws 0 w
  else
    send_image_row_black hw img draws 0 w

/-- The first `n` iterations of `print_loop` (lines 138-149); the loop itself never exits. -/
def print_loop (hw : Printspider) (img : PixelSource) (draws : Nat → Nat) :
    Nat → World → World
  | 0, w => w
  | n + 1, w => print_loop hw img draws n (print_loop_iteration hw img draws w)

/-! ## Observations on a trace -/

/-- The frames handed to `nozdata_queue`, oldest first. -/
def sent_frames (tr : List Event) : List Frame :=
  tr.filterMap fun e => match e with
    | Event.queue_send f => some f
    | _ => none

/-- Number of reads of the mode flag. -/
def mode_reads (tr : List Event) : Nat :=
  tr.countP fun e => match e with
    | Event.read_image_color _ => true
    | _ => false

/-- The event is a call of `printspider_fire_nozzle_color`. -/
def Event.is_color_fire : Event → Bool
  | Event.fire_nozzle_color _ _ => true
  | _ => false

/-- The event is a call of `printspider_fire_nozzle_black`. -/
def Event.is_black_fire : Event → Bool
  | Event.fire_nozzle_black _ _ => true
  | _ => false

/-- A sample instance for evaluation: a 4-byte buffer, 2 colour nozzles per row, 3 black ones;
a nozzle bit is set by adding a power of two to byte `c`. -/
def sample_hw : Printspider where
  PRINTSPIDER_NOZDATA_SZ := 4
  PRINTSPIDER_COLOR_NOZZLES_IN_ROW := 2
  PRINTSPIDER_COLOR_ROW_OFFSET := 5
  PRINTSPIDER_COLOR_VERTICAL_OFFSET := 1
  PRINTSPIDER_BLACK_NOZZLES_IN_ROW := 3
  PRINTSPIDER_BLACK_ROW_OFFSET := 7
  PRINTSPIDER_WAVEFORM_COLOR_B := 1
  PRINTSPIDER_WAVEFORM_BLACK_B := 3
  portTICK_PERIOD_MS := 10
  printspider_fire_nozzle_color := fun l p c => l.modify (fun b => b ||| 2 ^ p.toNat) c.toNat
  printspider_fire_nozzle_black := fun l p row => l.modify (fun b => b ||| 2 ^ p.toNat) row.toNat

/-- A sample initial state. -/
def sample_world : World :=
  { image_color := true, rand_calls := 0, waveform := none, stack := [9, 9, 9, 9, 9], trace := [] }

/-! ## The nozzles an encoder call fires, read off the loops -/

/-- The pairs `(c, y)`, in loop order, whose dither test succeeds in a call of
`send_image_row_color` that starts after `k` calls of `rand()`: the draw made for the pair
`(c, y)` is draw number `k + c * PRINTSPIDER_COLOR_NOZZLES_IN_ROW + y`. -/
def color_fired (hw : Printspider) (img : PixelSource) (draws : Nat → Nat) (pos : Int) (k : Nat) :
    List (Nat × Nat) :=
  (List.range 3).flatMap fun (c : Nat) =>
    ((List.range hw.PRINTSPIDER_COLOR_NOZZLES_IN_ROW).filter fun (y : Nat) =>
      dither_fires (img (pos - (c : Int) * hw.PRINTSPIDER_COLOR_ROW_OFFSET) y c)
        (draws (k + c * hw.PRINTSPIDER_COLOR_NOZZLES_IN_ROW + y))).map fun y => (c, y)

/-- The frame of a colour row: the zeroed buffer with the fired nozzles set, in loop order. -/
def color_frame (hw : Printspider) (img : PixelSource) (draws : Nat → Nat) (pos : Int) (k : Nat) :
    Frame :=
  (color_fired hw img draws pos k).foldl
    (fun f cy => hw.printspider_fire_nozzle_color f
      ((cy.2 : Int) + hw.PRINTSPIDER_COLOR_VERTICAL_OFFSET) cy.1)
    (List.replicate hw.PRINTSPIDER_NOZDATA_SZ 0)

/-- Number of ink-bearing pixels that `send_image_row_black` visits before the pixel `(row, y)`:
the number of `rand()` calls the call has made when it reaches that pixel. -/
def black_draws_before (hw : Printspider) (img : PixelSource) (pos : Int) (row y : Nat) : Nat :=
  ((List.range row).map fun (r : Nat) =>
      (List.range hw.PRINTSPIDER_BLACK_NOZZLES_IN_ROW).countP fun (y' : Nat) =>
        ink_bearing img (pos + (r : Int) * hw.PRINTSPIDER_BLACK_ROW_OFFSET) y').sum
    + (List.range y).countP fun (y' : Nat) =>
        ink_bearing img (pos + (row : Int) * hw.PRINTSPIDER_BLACK_ROW_OFFSET) y'

/-- The pairs `(row, y)`, in loop order, that a call of `send_image_row_black` fires when it
starts after `k` calls of `rand()`. -/
def black_fired (hw : Printspider) (img : PixelSource) (draws : Nat → Nat) (pos : Int) (k : Nat) :
    List (Nat × Nat) :=
  (List.range 2).flatMap fun (row : Nat) =>
    ((List.range hw.PRINTSPIDER_BLACK_NOZZLES_IN_ROW).filter fun (y : Nat) =>
      ink_bearing img (pos + (row : Int) * hw.PRINTSPIDER_BLACK_ROW_OFFSET) y
        && draws (k + black_draws_before hw img pos row y) % 2 == 1).map fun y => (row, y)

/-- The frame of a monochrome row: the zeroed buffer with the fired nozzles set, in loop order. -/
def black_frame (hw : Printspider) (img : PixelSource) (draws : Nat → Nat) (pos : Int) (k : Nat) :
    Frame :=
  (black_fired hw img draws pos k).foldl
    (fun f ry => hw.printspider_fire_nozzle_black f ry.2 ry.1)
    (List.replicate hw.PRINTSPIDER_NOZDATA_SZ 0)

/-- The nozzle indices `y < n` of channel `c` whose dither test succeeds when the inner loop of
`send_image_row_color` starts after `k` calls of `rand()`. -/
def color_hits (hw : Printspider) (img : PixelSource) (draws : Nat → Nat) (pos : Int) (c k n : Nat) :
    List Nat :=
  (List.range n).filter fun (y : Nat) =>
    dither_fires (img (pos - (c : Int) * hw.PRINTSPIDER_COLOR_ROW_OFFSET) y c) (draws (k + y))

/-- The nozzle indices `y < n` of sub-row `row` that the inner loop of `send_image_row_black`
fires when it starts after `k` calls of `rand()`. -/
def black_hits (hw : Printspider) (img : PixelSource) (draws : Nat → Nat) (pos : Int)
    (row k n : Nat) : List Nat :=
  (List.range n).filter fun (y : Nat) =>
    ink_bearing img (pos + (row : Int) * hw.PRINTSPIDER_BLACK_ROW_OFFSET) y
      && draws (k + (List.range y).countP fun (y' : Nat) =>
          ink_bearing img (pos + (row : Int) * hw.PRINTSPIDER_BLACK_ROW_OFFSET) y') % 2 == 1

/-- The calls made between the state `w` and the later state `w1`. -/
def new_events (w w1 : World) : List Event :=
  w1.trace.drop w.trace.length

/-- Loop order on pairs `(c, y)`: the pair `a` is visited before the pair `b`. -/
def loop_before (a b : Nat × Nat) : Prop :=
  a.1 < b.1 ∨ (a.1 = b.1 ∧ a.2 < b.2)

/-- The event is a call of `printspider_select_waveform`. -/
def Event.is_select_waveform : Event → Bool
  | Event.select_waveform _ => true
  | _ => false

/-- A second sample state: a later point of a run, in monochrome mode. -/
def sample_world_later : World :=
  { image_color := false, rand_calls := 5, waveform := some 1, stack := [6, 4, 0, 0],
    trace := [Event.queue_send [6, 4, 0, 0]] }

/-- Modelled from the spec: a frame encodes a fire/no-fire bit per nozzle and unfired nozzles are
zero, so a buffer in which `printspider_fire_nozzle_color` or `printspider_fire_nozzle_black`
(neither is in the source tree) has just set the bit of a nozzle of the row is not the all-zero
buffer. -/
def fire_sets_a_bit (hw : Printspider) : Prop :=
  (∀ (f : Frame) (c y : Nat), c < 3 → y < hw.PRINTSPIDER_COLOR_NOZZLES_IN_ROW →
    hw.printspider_fire_nozzle_color f ((y : Int) + hw.PRINTSPIDER_COLOR_VERTICAL_OFFSET) c
      ≠ List.replicate hw.PRINTSPIDER_NOZDATA_SZ 0) ∧
  (∀ (f : Frame) (row y : Nat), row < 2 → y < hw.PRINTSPIDER_BLACK_NOZZLES_IN_ROW →
    hw.printspider_fire_nozzle_black f y row ≠ List.replicate hw.PRINTSPIDER_NOZDATA_SZ 0)

/-! ## The row handoff channel -/

/-- A FreeRTOS queue: its length, its item size in bytes and the items it holds, oldest first. -/
structure Queue where
  uxLength : Nat
  uxItemSize : Nat
  items : List Frame
  deriving DecidableEq, Repr

/-- The call `xQueueCreate(uxQueueLength, uxItemSize)`: an empty queue. -/
def xQueueCreate (uxQueueLength uxItemSize : Nat) : Queue :=
  { uxLength := uxQueueLength, uxItemSize := uxItemSize, items := [] }

/-- The queue `nozdata_queue` as `init_printing` creates it (line 54). -/
def nozdata_queue (hw : Printspider) : Queue :=
  xQueueCreate 1 hw.PRINTSPIDER_NOZDATA_SZ

/-- The constant `WAVEFORM_DMALEN` (line 36). -/
def WAVEFORM_DMALEN : Nat := 1500

/-- The function `init_printing` (lines 51-88): it creates `nozdata_queue`, sets up and starts the
parallel I2S device, whose refill callback `printspider_buffer_filler_fn` gets the queue as its
argument, and selects the waveform. The queue created is part of the result. -/
def init_printing (hw : Printspider) (w : World) : Int × Queue × World :=
  let queue := nozdata_queue hw
  let w := { w with trace := w.trace ++
    [Event.i2s_parallel_setup 8000000 (WAVEFORM_DMALEN * 2), Event.i2s_parallel_start] }
  let (_, w) := select_waveform hw w
  (ESP_OK, queue, w)

/-- Modelled from the spec: `send` of the row handoff channel (the queue side of
`xQueueSend(nozdata_queue, nozdata, portMAX_DELAY)`, FreeRTOS code outside the source tree). If a
slot is free the item, `uxItemSize` bytes of the buffer, is stored; if not, the producer suspends,
which is the result `none`. -/
def send (q : Queue) (nozdata : Frame) : Option Queue :=
  if q.items.length < q.uxLength then
    some { q with items := q.items ++ [nozdata.take q.uxItemSize] }
  else
    none

/-- Modelled from the spec: `try_take` of the row handoff channel, which never blocks: the oldest
frame if the channel holds one, nothing if it is empty. -/
def try_take (q : Queue) : Option Frame × Queue :=
  match q.items with
  | [] => (none, q)
  | f :: rest => (some f, { q with items := rest })

/-- Modelled from the spec: one refill by the consumer `printspider_buffer_filler_fn` (not in the
source tree), which keeps the last frame it took: it takes a frame if the channel holds one and
falls back to repeating the last taken frame if not. The `Bool` tells a fresh frame (`true`) from
the fallback (`false`). -/
def refill (q : Queue) (last : Frame) : (Frame × Bool) × Queue × Frame :=
  match try_take q with
  | (some f, q') => ((f, true), q', f)
  | (none, q') => ((last, false), q', last)

/-! ## The loops -/

theorem color_inner (hw : Printspider) (img : PixelSource) (draws : Nat → Nat) (pos : Int)
    (c n : Nat) (f : Frame) (w : World) :
    (List.range n).foldl (color_step hw img draws pos c) (f, w) =
      ((color_hits hw img draws pos c w.rand_calls n).foldl
          (fun f (y : Nat) => hw.printspider_fire_nozzle_color f
            ((y : Int) + hw.PRINTSPIDER_COLOR_VERTICAL_OFFSET) c) f,
        { w with
          rand_calls := w.rand_calls + n
          trace := w.trace ++ (color_hits hw img draws pos c w.rand_calls n).map fun (y : Nat) =>
            Event.fire_nozzle_color ((y : Int) + hw.PRINTSPIDER_COLOR_VERTICAL_OFFSET) c }) := by
  induction n with
  | zero => simp [color_hits]
  | succ n ih =>
    rw [List.range_succ, List.foldl_append, ih]
    by_cases h : dither_fires (img (pos - (c : Int) * hw.PRINTSPIDER_COLOR_ROW_OFFSET) n c)
        (draws (w.rand_calls + n)) = true
    · simp [color_step, rand, color_hits, List.range_succ, List.filter_append, h,
        List.foldl_append, Nat.add_assoc]
    · simp [color_step, rand, color_hits, List.range_succ, List.filter_append, h,
        Nat.add_assoc]

theorem black_inner (hw : Printspider) (img : PixelSource) (draws : Nat → Nat) (pos : Int)
    (row n : Nat) (f : Frame) (w : World) :
    (List.range n).foldl (black_step hw img draws pos row) (f, w) =
      ((black_hits hw img draws pos row w.rand_calls n).foldl
          (fun f (y : Nat) => hw.printspider_fire_nozzle_black f y row) f,
        { w with
          rand_calls := w.rand_calls + (List.range n).countP fun (y' : Nat) =>
            ink_bearing img (pos + (row : Int) * hw.PRINTSPIDER_BLACK_ROW_OFFSET) y'
          trace := w.trace ++ (black_hits hw img draws pos row w.rand_calls n).map fun (y : Nat) =>
            Event.fire_nozzle_black y row }) := by
  induction n with
  | zero => simp [black_hits]
  | succ n ih =>
    rw [List.range_succ, List.foldl_append, ih]
    by_cases hink : ink_bearing img (pos + (row : Int) * hw.PRINTSPIDER_BLACK_ROW_OFFSET) n = true
    · by_cases hbit : draws (w.rand_calls + (List.range n).countP fun (y' : Nat) =>
          ink_bearing img (pos + (row : Int) * hw.PRINTSPIDER_BLACK_ROW_OFFSET) y') % 2 = 1
      · simp [black_step, rand, black_hits, List.range_succ, List.filter_append, hink, hbit,
          List.foldl_append, Nat.add_assoc]
      · simp [black_step, rand, black_hits, List.range_succ, List.filter_append, hink, hbit,
          Nat.add_assoc]
    · simp [black_step, black_hits, List.range_succ, List.filter_append, hink]

theorem memset_local_array (stack : List Nat) (n : Nat) :
    memset (local_array stack n) 0 n = List.replicate n 0 := by
  simp [memset, local_array]

theorem color_fired_eq (hw : Printspider) (img : PixelSource) (draws : Nat → Nat) (pos : Int)
    (k : Nat) :
    color_fired hw img draws pos k =
      (color_hits hw img draws pos 0 k hw.PRINTSPIDER_COLOR_NOZZLES_IN_ROW).map (fun y => (0, y))
      ++ ((color_hits hw img draws pos 1 (k + hw.PRINTSPIDER_COLOR_NOZZLES_IN_ROW)
            hw.PRINTSPIDER_COLOR_NOZZLES_IN_ROW).map (fun y => (1, y))
      ++ (color_hits hw img draws pos 2 (k + hw.PRINTSPIDER_COLOR_NOZZLES_IN_ROW
            + hw.PRINTSPIDER_COLOR_NOZZLES_IN_ROW)
            hw.PRINTSPIDER_COLOR_NOZZLES_IN_ROW).map (fun y => (2, y))) := by
  have h3 : List.range 3 = [0, 1, 2] := rfl
  simp [color_fired, color_hits, h3, Nat.two_mul, Nat.add_assoc]

/-- What a call of `send_image_row_color` does to the state. -/
theorem send_image_row_color_eq (hw : Printspider) (img : PixelSource) (draws : Nat → Nat)
    (pos : Int) (w : World) :
    send_image_row_color hw img draws pos w =
      { w with
        rand_calls := w.rand_calls + 3 * hw.PRINTSPIDER_COLOR_NOZZLES_IN_ROW
        stack := color_frame hw img draws pos w.rand_calls
        trace := w.trace
          ++ (color_fired hw img draws pos w.rand_calls).map (fun cy =>
              Event.fire_nozzle_color ((cy.2 : Int) + hw.PRINTSPIDER_COLOR_VERTICAL_OFFSET) cy.1)
          ++ [Event.queue_send (color_frame hw img draws pos w.rand_calls)] } := by
  have h3 : List.range 3 = [0, 1, 2] := rfl
  simp only [send_image_row_color, memset_local_array, h3, List.foldl_cons, List.foldl_nil,
    color_inner, xQueueSend, color_frame, color_fired_eq]
  simp [List.foldl_append, List.foldl_map, Function.comp_def, Nat.add_assoc]
  omega

theorem black_fired_eq (hw : Printspider) (img : PixelSource) (draws : Nat → Nat) (pos : Int)
    (k : Nat) :
    black_fired hw img draws pos k =
      (black_hits hw img draws pos 0 k hw.PRINTSPIDER_BLACK_NOZZLES_IN_ROW).map (fun y => (0, y))
      ++ (black_hits hw img draws pos 1
            (k + (List.range hw.PRINTSPIDER_BLACK_NOZZLES_IN_ROW).countP fun (y' : Nat) =>
              ink_bearing img (pos + ((0 : Nat) : Int) * hw.PRINTSPIDER_BLACK_ROW_OFFSET) y')
            hw.PRINTSPIDER_BLACK_NOZZLES_IN_ROW).map (fun y => (1, y)) := by
  have h2 : List.range 2 = [0, 1] := rfl
  have h1 : List.range 1 = [0] := rfl
  simp [black_fired, black_hits, black_draws_before, h2, h1, Nat.add_assoc]

/-- What a call of `send_image_row_black` does to the state. -/
theorem send_image_row_black_eq (hw : Printspider) (img : PixelSource) (draws : Nat → Nat)
    (pos : Int) (w : World) :
    send_image_row_black hw img draws pos w =
      { w with
        rand_calls := w.rand_calls + black_draws_before hw img pos 2 0
        stack := black_frame hw img draws pos w.rand_calls
        trace := w.trace
          ++ (black_fired hw img draws pos w.rand_calls).map (fun ry =>
              Event.fire_nozzle_black (ry.2 : Int) ry.1)
          ++ [Event.queue_send (black_frame hw img draws pos w.rand_calls)] } := by
  have h2 : List.range 2 = [0, 1] := rfl
  simp only [send_image_row_black, memset_local_array, h2, List.foldl_cons, List.foldl_nil,
    black_inner, xQueueSend, black_frame, black_fired_eq]
  simp [List.foldl_append, List.foldl_map, Function.comp_def, Nat.add_assoc, black_draws_before,
    h2]

/-! ## The events of an encoder call -/

theorem new_events_color (hw : Printspider) (img : PixelSource) (draws : Nat → Nat)
    (pos : Int) (w : World) :
    new_events w (send_image_row_color hw img draws pos w) =
      (color_fired hw img draws pos w.rand_calls).map (fun cy =>
          Event.fire_nozzle_color ((cy.2 : Int) + hw.PRINTSPIDER_COLOR_VERTICAL_OFFSET) cy.1)
        ++ [Event.queue_send (color_frame hw img draws pos w.rand_calls)] := by
  rw [send_image_row_color_eq]
  simp [new_events, List.append_assoc]

theorem new_events_black (hw : Printspider) (img : PixelSource) (draws : Nat → Nat)
    (pos : Int) (w : World) :
    new_events w (send_image_row_black hw img draws pos w) =
      (black_fired hw img draws pos w.rand_calls).map (fun ry =>
          Event.fire_nozzle_black (ry.2 : Int) ry.1)
        ++ [Event.queue_send (black_frame hw img draws pos w.rand_calls)] := by
  rw [send_image_row_black_eq]
  simp [new_events, List.append_assoc]

theorem dither_fires_iff (v r : Nat) : dither_fires v r = true ↔ r % 256 < 255 - v % 256 := by
  have h : r &&& 255 = r % 256 := Nat.and_pow_two_sub_one_eq_mod r 8
  have hv : v % 256 < 256 := Nat.mod_lt _ (by decide)
  have hm : (255 - v % 256) % 256 = 255 - v % 256 := Nat.mod_eq_of_lt (by omega)
  simp only [dither_fires, h, hm, decide_eq_true_eq, gt_iff_lt]

theorem mem_color_fired (hw : Printspider) (img : PixelSource) (draws : Nat → Nat) (pos : Int)
    (k c y : Nat) :
    (c, y) ∈ color_fired hw img draws pos k ↔
      c < 3 ∧ y < hw.PRINTSPIDER_COLOR_NOZZLES_IN_ROW ∧
        dither_fires (img (pos - (c : Int) * hw.PRINTSPIDER_COLOR_ROW_OFFSET) y c)
          (draws (k + c * hw.PRINTSPIDER_COLOR_NOZZLES_IN_ROW + y)) = true := by
  simp only [color_fired, List.mem_flatMap, List.mem_map, List.mem_filter, List.mem_range,
    Prod.mk.injEq]
  constructor
  · rintro ⟨c1, hc1, y1, ⟨hy1, ht⟩, rfl, rfl⟩
    exact ⟨hc1, hy1, ht⟩
  · rintro ⟨hc, hy, ht⟩
    exact ⟨c, hc, y, ⟨hy, ht⟩, rfl, rfl⟩

theorem mem_black_fired (hw : Printspider) (img : PixelSource) (draws : Nat → Nat) (pos : Int)
    (k row y : Nat) :
    (row, y) ∈ black_fired hw img draws pos k ↔
      row < 2 ∧ y < hw.PRINTSPIDER_BLACK_NOZZLES_IN_ROW ∧
        ink_bearing img (pos + (row : Int) * hw.PRINTSPIDER_BLACK_ROW_OFFSET) y = true ∧
        draws (k + black_draws_before hw img pos row y) % 2 = 1 := by
  simp only [black_fired, List.mem_flatMap, List.mem_map, List.mem_filter, List.mem_range,
    Prod.mk.injEq, Bool.and_eq_true, beq_iff_eq]
  constructor
  · rintro ⟨r1, hr1, y1, ⟨hy1, hi, hd⟩, rfl, rfl⟩
    exact ⟨hr1, hy1, hi, hd⟩
  · rintro ⟨hr, hy, hi, hd⟩
    exact ⟨row, hr, y, ⟨hy, hi, hd⟩, rfl, rfl⟩

theorem black_fired_sorted (hw : Printspider) (img : PixelSource) (draws : Nat → Nat) (pos : Int)
    (k : Nat) : (black_fired hw img draws pos k).Pairwise loop_before := by
  unfold black_fired
  rw [List.pairwise_flatMap]
  constructor
  · intro c _
    rw [List.pairwise_map]
    exact ((List.pairwise_lt_range _).filter _).imp (fun h => Or.inr ⟨rfl, h⟩)
  · refine (List.pairwise_lt_range 2).imp ?_
    intro a b hab x hx y hy
    simp only [List.mem_map] at hx hy
    obtain ⟨_, _, rfl⟩ := hx
    obtain ⟨_, _, rfl⟩ := hy
    exact Or.inl hab

theorem fire_color_mem_events (hw : Printspider) (img : PixelSource) (draws : Nat → Nat)
    (pos : Int) (w : World) (p c : Int) :
    Event.fire_nozzle_color p c ∈ new_events w (send_image_row_color hw img draws pos w) ↔
      ∃ c1 y1 : Nat, (c1, y1) ∈ color_fired hw img draws pos w.rand_calls ∧
        p = (y1 : Int) + hw.PRINTSPIDER_COLOR_VERTICAL_OFFSET ∧ c = (c1 : Int) := by
  rw [new_events_color]
  simp only [List.mem_append, List.mem_map, List.mem_singleton, Prod.exists, reduceCtorEq,
    or_false, Event.fire_nozzle_color.injEq]
  constructor
  · rintro ⟨c1, y1, hm, hp, hc⟩
    exact ⟨c1, y1, hm, hp.symm, hc.symm⟩
  · rintro ⟨c1, y1, hm, hp, hc⟩
    exact ⟨c1, y1, hm, hp.symm, hc.symm⟩

theorem fire_black_mem_events (hw : Printspider) (img : PixelSource) (draws : Nat → Nat)
    (pos : Int) (w : World) (p row : Int) :
    Event.fire_nozzle_black p row ∈ new_events w (send_image_row_black hw img draws pos w) ↔
      ∃ r1 y1 : Nat, (r1, y1) ∈ black_fired hw img draws pos w.rand_calls ∧
        p = (y1 : Int) ∧ row = (r1 : Int) := by
  rw [new_events_black]
  simp only [List.mem_append, List.mem_map, List.mem_singleton, Prod.exists, reduceCtorEq,
    or_false, Event.fire_nozzle_black.injEq]
  constructor
  · rintro ⟨r1, y1, hm, hp, hc⟩
    exact ⟨r1, y1, hm, hp.symm, hc.symm⟩
  · rintro ⟨r1, y1, hm, hp, hc⟩
    exact ⟨r1, y1, hm, hp.symm, hc.symm⟩

/-- Nozzle `(y + PRINTSPIDER_COLOR_VERTICAL_OFFSET, c)` is fired by a call of
`send_image_row_color` exactly when the pair `(c, y)` passes the dither test. -/
theorem fire_color_nat_mem_events (hw : Printspider) (img : PixelSource) (draws : Nat → Nat)
    (pos : Int) (w : World) (c y : Nat) :
    Event.fire_nozzle_color ((y : Int) + hw.PRINTSPIDER_COLOR_VERTICAL_OFFSET) c
        ∈ new_events w (send_image_row_color hw img draws pos w) ↔
      (c, y) ∈ color_fired hw img draws pos w.rand_calls := by
  rw [fire_color_mem_events]
  constructor
  · rintro ⟨c1, y1, hm, hp, hc⟩
    have h1 : y1 = y := by omega
    have h2 : c1 = c := by omega
    subst h1 h2
    exact hm
  · intro hm
    exact ⟨c, y, hm, rfl, rfl⟩

/-- Nozzle `(y, row)` is fired by a call of `send_image_row_black` exactly when the pair
`(row, y)` is ink-bearing and draws an odd number. -/
theorem fire_black_nat_mem_events (hw : Printspider) (img : PixelSource) (draws : Nat → Nat)
    (pos : Int) (w : World) (row y : Nat) :
    Event.fire_nozzle_black (y : Int) (row : Int)
        ∈ new_events w (send_image_row_black hw img draws pos w) ↔
      (row, y) ∈ black_fired hw img draws pos w.rand_calls := by
  rw [fire_black_mem_events]
  constructor
  · rintro ⟨r1, y1, hm, hp, hc⟩
    have h1 : y1 = y := by omega
    have h2 : r1 = row := by omega
    subst h1 h2
    exact hm
  · intro hm
    exact ⟨row, y, hm, rfl, rfl⟩

theorem sent_frames_color (hw : Printspider) (img : PixelSource) (draws : Nat → Nat)
    (pos : Int) (w : World) :
    sent_frames (new_events w (send_image_row_color hw img draws pos w)) =
      [color_frame hw img draws pos w.rand_calls] := by
  rw [new_events_color]
  simp [sent_frames, List.filterMap_append, List.filterMap_map, Function.comp_def]

theorem sent_frames_black (hw : Printspider) (img : PixelSource) (draws : Nat → Nat)
    (pos : Int) (w : World) :
    sent_frames (new_events w (send_image_row_black hw img draws pos w)) =
      [black_frame hw img draws pos w.rand_calls] := by
  rw [new_events_black]
  simp [sent_frames, List.filterMap_append, List.filterMap_map, Function.comp_def]

theorem color_fires_of_events (hw : Printspider) (img : PixelSource) (draws : Nat → Nat)
    (pos : Int) (w : World) :
    (new_events w (send_image_row_color hw img draws pos w)).filter Event.is_color_fire =
      (color_fired hw img draws pos w.rand_calls).map (fun cy =>
        Event.fire_nozzle_color ((cy.2 : Int) + hw.PRINTSPIDER_COLOR_VERTICAL_OFFSET) cy.1) := by
  rw [new_events_color]
  simp [List.filter_append, List.filter_map, Function.comp_def, Event.is_color_fire]

theorem black_fires_of_events (hw : Printspider) (img : PixelSource) (draws : Nat → Nat)
    (pos : Int) (w : World) :
    (new_events w (send_image_row_black hw img draws pos w)).filter Event.is_black_fire =
      (black_fired hw img draws pos w.rand_calls).map (fun ry =>
        Event.fire_nozzle_black (ry.2 : Int) ry.1) := by
  rw [new_events_black]
  simp [List.filter_append, List.filter_map, Function.comp_def, Event.is_black_fire]

/-! ## The colour encoder -/

/-- C3: for a solid-black input, `send_image_row_color` fires nozzle
`(y + PRINTSPIDER_COLOR_VERTICAL_OFFSET, c)`, for every `c < 3` and
`y < PRINTSPIDER_COLOR_NOZZLES_IN_ROW`, whenever the low byte of the draw made for that nozzle is
in `0..254`, and the only byte for which the nozzle is not fired is 255. -/
theorem send_image_row_color_black_input (hw : Printspider) (img : PixelSource)
    (draws : Nat → Nat) (pos : Int) (w : World) (hblack : ∀ x y c, img x y c = 0)
    (c y : Nat) (hc : c < 3) (hy : y < hw.PRINTSPIDER_COLOR_NOZZLES_IN_ROW) :
    (draws (w.rand_calls + c * hw.PRINTSPIDER_COLOR_NOZZLES_IN_ROW + y) % 256 ≤ 254 →
      Event.fire_nozzle_color ((y : Int) + hw.PRINTSPIDER_COLOR_VERTICAL_OFFSET) c
        ∈ new_events w (send_image_row_color hw img draws pos w)) ∧
    (Event.fire_nozzle_color ((y : Int) + hw.PRINTSPIDER_COLOR_VERTICAL_OFFSET) c
        ∉ new_events w (send_image_row_color hw img draws pos w) ↔
      draws (w.rand_calls + c * hw.PRINTSPIDER_COLOR_NOZZLES_IN_ROW + y) % 256 = 255) := by
  have hlt : draws (w.rand_calls + c * hw.PRINTSPIDER_COLOR_NOZZLES_IN_ROW + y) % 256 < 256 :=
    Nat.mod_lt _ (by decide)
  rw [fire_color_nat_mem_events, mem_color_fired, dither_fires_iff, hblack]
  constructor
  · intro h
    exact ⟨hc, hy, by omega⟩
  · constructor
    · intro h
      by_contra hne
      exact h ⟨hc, hy, by omega⟩
    · rintro h ⟨_, _, h3⟩
      omega

theorem send_image_row_color_black_input_witness :
    Event.fire_nozzle_color 2 2 ∈ new_events sample_world
        (send_image_row_color sample_hw (fun _ _ _ => 0) (fun k => 50 * k) 4 sample_world) ∧
    ¬ (Event.fire_nozzle_color 1 2 ∉ new_events sample_world
        (send_image_row_color sample_hw (fun _ _ _ => 0) (fun k => 50 * k) 4 sample_world)) :=
  ⟨(send_image_row_color_black_input sample_hw (fun _ _ _ => 0) (fun k => 50 * k) 4 sample_world
      (fun _ _ _ => rfl) 2 1 (by decide) (by decide)).1 (by decide),
    fun h => absurd
      ((send_image_row_color_black_input sample_hw (fun _ _ _ => 0) (fun k => 50 * k) 4
        sample_world (fun _ _ _ => rfl) 2 0 (by decide) (by decide)).2.mp h) (by decide)⟩

/-! ## The monochrome encoder -/

theorem color_fired_congr (hw : Printspider) (img : PixelSource) (pos : Int)
    (draws1 draws2 : Nat → Nat) (k1 k2 : Nat) (h : ∀ i, draws1 (k1 + i) = draws2 (k2 + i)) :
    color_fired hw img draws1 pos k1 = color_fired hw img draws2 pos k2 := by
  simp only [color_fired, Nat.add_assoc, h]

theorem black_fired_congr (hw : Printspider) (img : PixelSource) (pos : Int)
    (draws1 draws2 : Nat → Nat) (k1 k2 : Nat) (h : ∀ i, draws1 (k1 + i) = draws2 (k2 + i)) :
    black_fired hw img draws1 pos k1 = black_fired hw img draws2 pos k2 := by
  simp only [black_fired, h]

/-- C5: both encoders build their frame from a buffer of `PRINTSPIDER_NOZDATA_SZ` bytes that is
all zero, whatever the memory held, before a nozzle bit is set, and the frame sent depends on the
position, the pixel source and the draws of the call only: two calls with the same position and
pixel source whose draws agree send the same frame, from any two states (any earlier frames, any
stack content, any number of earlier draws). -/
theorem encoder_frame_independent_of_history (hw : Printspider) (img : PixelSource) (pos : Int)
    (draws1 draws2 : Nat → Nat) (w1 w2 : World)
    (hdraws : ∀ i, draws1 (w1.rand_calls + i) = draws2 (w2.rand_calls + i)) :
    (memset (local_array w1.stack hw.PRINTSPIDER_NOZDATA_SZ) 0 hw.PRINTSPIDER_NOZDATA_SZ =
        List.replicate hw.PRINTSPIDER_NOZDATA_SZ 0 ∧
      memset (local_array w2.stack hw.PRINTSPIDER_NOZDATA_SZ) 0 hw.PRINTSPIDER_NOZDATA_SZ =
        List.replicate hw.PRINTSPIDER_NOZDATA_SZ 0) ∧
    (∃ fired : List (Nat × Nat),
      sent_frames (new_events w1 (send_image_row_color hw img draws1 pos w1)) =
        [fired.foldl (fun f cy => hw.printspider_fire_nozzle_color f
            ((cy.2 : Int) + hw.PRINTSPIDER_COLOR_VERTICAL_OFFSET) cy.1)
          (List.replicate hw.PRINTSPIDER_NOZDATA_SZ 0)] ∧
      sent_frames (new_events w2 (send_image_row_color hw img draws2 pos w2)) =
        sent_frames (new_events w1 (send_image_row_color hw img draws1 pos w1))) ∧
    (∃ fired : List (Nat × Nat),
      sent_frames (new_events w1 (send_image_row_black hw img draws1 pos w1)) =
        [fired.foldl (fun f ry => hw.printspider_fire_nozzle_black f ry.2 ry.1)
          (List.replicate hw.PRINTSPIDER_NOZDATA_SZ 0)] ∧
      sent_frames (new_events w2 (send_image_row_black hw img draws2 pos w2)) =
        sent_frames (new_events w1 (send_image_row_black hw img draws1 pos w1))) := by
  refine ⟨⟨memset_local_array _ _, memset_local_array _ _⟩, ?_, ?_⟩
  · refine ⟨color_fired hw img draws1 pos w1.rand_calls, sent_frames_color _ _ _ _ _, ?_⟩
    rw [sent_frames_color, sent_frames_color, color_frame, color_frame,
      color_fired_congr hw img pos draws1 draws2 w1.rand_calls w2.rand_calls hdraws]
  · refine ⟨black_fired hw img draws1 pos w1.rand_calls, sent_frames_black _ _ _ _ _, ?_⟩
    rw [sent_frames_black, sent_frames_black, black_frame, black_frame,
      black_fired_congr hw img pos draws1 draws2 w1.rand_calls w2.rand_calls hdraws]

theorem encoder_frame_independent_of_history_witness :
    sent_frames (new_events sample_world_later
        (send_image_row_color sample_hw image_get_pixel (fun k => 37 * (k - 5)) 0
          sample_world_later)) =
      sent_frames (new_events sample_world
        (send_image_row_color sample_hw image_get_pixel (fun k => 37 * k) 0 sample_world)) ∧
    sent_frames (new_events sample_world_later
        (send_image_row_black sample_hw image_get_pixel (fun k => 37 * (k - 5)) 0
          sample_world_later)) =
      sent_frames (new_events sample_world
        (send_image_row_black sample_hw image_get_pixel (fun k => 37 * k) 0 sample_world)) :=
  have h := encoder_frame_independent_of_history sample_hw image_get_pixel 0
    (fun k => 37 * k) (fun k => 37 * (k - 5)) sample_world sample_world_later
    (fun i => by simp [sample_world, sample_world_later])
  ⟨h.2.1.choose_spec.2, h.2.2.choose_spec.2⟩

/-! ## The waveform selector -/

/-- C6: `select_waveform` hands the waveform subsystem the profile of the active mode, once:
`PRINTSPIDER_WAVEFORM_COLOR_B` when `image_color` is true and `PRINTSPIDER_WAVEFORM_BLACK_B` when
it is false; it leaves `image_color` unchanged, returns `ESP_OK`, and a second call in a row
leaves the selected profile and the mode as the first call left them. -/
theorem select_waveform_matches_mode (hw : Printspider) (w : World) :
    (select_waveform hw w).1 = ESP_OK ∧
    (select_waveform hw w).2.waveform =
      some (if w.image_color then hw.PRINTSPIDER_WAVEFORM_COLOR_B
        else hw.PRINTSPIDER_WAVEFORM_BLACK_B) ∧
    (new_events w (select_waveform hw w).2).filter Event.is_select_waveform =
      [Event.select_waveform (if w.image_color then hw.PRINTSPIDER_WAVEFORM_COLOR_B
        else hw.PRINTSPIDER_WAVEFORM_BLACK_B)] ∧
    (select_waveform hw w).2.image_color = w.image_color ∧
    (select_waveform hw (select_waveform hw w).2).1 = ESP_OK ∧
    (select_waveform hw (select_waveform hw w).2).2.waveform = (select_waveform hw w).2.waveform ∧
    (select_waveform hw (select_waveform hw w).2).2.image_color =
      (select_waveform hw w).2.image_color := by
  cases hflag : w.image_color <;>
    simp [select_waveform, read_image_color, printspider_select_waveform, new_events, hflag,
      Event.is_select_waveform]

/-! ## The print loop -/

theorem new_events_print_loop_iteration (hw : Printspider) (img : PixelSource)
    (draws : Nat → Nat) (w : World) :
    new_events w (print_loop_iteration hw img draws w) =
      [Event.task_delay (3000 / hw.portTICK_PERIOD_MS), Event.read_image_color w.image_color]
        ++ (if w.image_color then
            (color_fired hw img draws 0 w.rand_calls).map (fun cy =>
                Event.fire_nozzle_color ((cy.2 : Int) + hw.PRINTSPIDER_COLOR_VERTICAL_OFFSET) cy.1)
              ++ [Event.queue_send (color_frame hw img draws 0 w.rand_calls)]
          else
            (black_fired hw img draws 0 w.rand_calls).map (fun ry =>
                Event.fire_nozzle_black (ry.2 : Int) ry.1)
              ++ [Event.queue_send (black_frame hw img draws 0 w.rand_calls)]) := by
  cases hflag : w.image_color <;>
    simp [print_loop_iteration, read_image_color, vTaskDelay, hflag, send_image_row_color_eq,
      send_image_row_black_eq, new_events, List.append_assoc]

theorem print_loop_succ (hw : Printspider) (img : PixelSource) (draws : Nat → Nat) (n : Nat)
    (w : World) :
    print_loop hw img draws (n + 1) w =
      print_loop_iteration hw img draws (print_loop hw img draws n w) := by
  induction n generalizing w with
  | zero => rfl
  | succ n ih =>
    show print_loop hw img draws (n + 1) (print_loop_iteration hw img draws w) = _
    rw [ih]
    rfl

theorem print_loop_iteration_image_color (hw : Printspider) (img : PixelSource)
    (draws : Nat → Nat) (w : World) :
    (print_loop_iteration hw img draws w).image_color = w.image_color := by
  cases hflag : w.image_color <;>
    simp [print_loop_iteration, read_image_color, vTaskDelay, hflag, send_image_row_color_eq,
      send_image_row_black_eq]

/-- C7: every iteration of `print_loop` reads the mode flag `image_color` once and hands one
frame to the channel: the frame that `send_image_row_color (0)` sends when the flag is true and
the frame that `send_image_row_black (0)` sends when it is false, for position 0; an iteration
with the flag true makes no `printspider_fire_nozzle_black` call, one with the flag false no
`printspider_fire_nozzle_color` call, and the flag is left unchanged. This holds for each of the
iterations of the loop. -/
theorem print_loop_iteration_sends_one_frame (hw : Printspider) (img : PixelSource)
    (draws : Nat → Nat) (w0 : World) (n : Nat) :
    mode_reads (new_events (print_loop hw img draws n w0)
        (print_loop hw img draws (n + 1) w0)) = 1 ∧
    (∃ frame : Frame,
      sent_frames (new_events (print_loop hw img draws n w0)
        (print_loop hw img draws (n + 1) w0)) = [frame] ∧
      ((print_loop hw img draws n w0).image_color = true →
        sent_frames (new_events (print_loop hw img draws n w0)
          (send_image_row_color hw img draws 0 (print_loop hw img draws n w0))) = [frame] ∧
        (new_events (print_loop hw img draws n w0)
          (print_loop hw img draws (n + 1) w0)).filter Event.is_black_fire = []) ∧
      ((print_loop hw img draws n w0).image_color = false →
        sent_frames (new_events (print_loop hw img draws n w0)
          (send_image_row_black hw img draws 0 (print_loop hw img draws n w0))) = [frame] ∧
        (new_events (print_loop hw img draws n w0)
          (print_loop hw img draws (n + 1) w0)).filter Event.is_color_fire = [])) ∧
    (print_loop hw img draws (n + 1) w0).image_color =
      (print_loop hw img draws n w0).image_color := by
  rw [print_loop_succ]
  generalize print_loop hw img draws n w0 = w
  refine ⟨?_, ?_, print_loop_iteration_image_color hw img draws w⟩
  · rw [new_events_print_loop_iteration]
    cases w.image_color <;>
      simp [mode_reads, List.countP_append, List.countP_map, Function.comp_def,
        List.countP_cons]
  · rw [new_events_print_loop_iteration, sent_frames_color, sent_frames_black]
    cases hflag : w.image_color
    · refine ⟨black_frame hw img draws 0 w.rand_calls, ?_, ?_, ?_⟩
      · simp [sent_frames, List.filterMap_append, List.filterMap_map, Function.comp_def]
      · intro h
        cases h
      · intro _
        refine ⟨rfl, ?_⟩
        simp [List.filter_append, List.filter_map, Function.comp_def, Event.is_color_fire]
    · refine ⟨color_frame hw img draws 0 w.rand_calls, ?_, ?_, ?_⟩
      · simp [sent_frames, List.filterMap_append, List.filterMap_map, Function.comp_def]
      · intro _
        refine ⟨rfl, ?_⟩
        simp [List.filter_append, List.filter_map, Function.comp_def, Event.is_black_fire]
      · intro h
        cases h

theorem print_loop_iteration_sends_one_frame_witness :
    sent_frames (new_events (print_loop sample_hw image_get_pixel (fun k => 100 * k) 1 sample_world)
        (send_image_row_color sample_hw image_get_pixel (fun k => 100 * k) 0
          (print_loop sample_hw image_get_pixel (fun k => 100 * k) 1 sample_world))) =
      sent_frames (new_events (print_loop sample_hw image_get_pixel (fun k => 100 * k) 1 sample_world)
        (print_loop sample_hw image_get_pixel (fun k => 100 * k) (1 + 1) sample_world)) ∧
    (new_events (print_loop sample_hw image_get_pixel (fun k => 100 * k) 1 sample_world)
      (print_loop sample_hw image_get_pixel (fun k => 100 * k) (1 + 1) sample_world)).filter
        Event.is_black_fire = [] := by
  obtain ⟨_, ⟨frame, h1, h2, _⟩, _⟩ :=
    print_loop_iteration_sends_one_frame sample_hw image_get_pixel (fun k => 100 * k)
      sample_world 1
  have hflag : (print_loop sample_hw image_get_pixel (fun k => 100 * k) 1
      sample_world).image_color = true := by
    rw [print_loop_succ, print_loop_iteration_image_color]
    rfl
  exact ⟨(h2 hflag).1.trans h1.symm, (h2 hflag).2⟩

/-! ## Properties of the row handoff channel -/

/-- C8: `init_printing` creates `nozdata_queue` with room for exactly one item of
`PRINTSPIDER_NOZDATA_SZ` bytes. After one `send` of a frame `f` into the empty channel a further `send` does not fit, one
`try_take` returns exactly `f` and empties the channel, a second `try_take` finds nothing, and the
consumer then falls back to the frame `f` it took last. -/
theorem nozdata_queue_capacity_one (hw : Printspider) (w : World) (f last : Frame)
    (hf : f.length = hw.PRINTSPIDER_NOZDATA_SZ) :
    (init_printing hw w).2.1 = nozdata_queue hw ∧
    (nozdata_queue hw).uxLength = 1 ∧
    (nozdata_queue hw).uxItemSize = hw.PRINTSPIDER_NOZDATA_SZ ∧
    (nozdata_queue hw).items = [] ∧
    ∃ q1 : Queue,
      send (nozdata_queue hw) f = some q1 ∧
      (∀ g : Frame, send q1 g = none) ∧
      try_take q1 = (some f, nozdata_queue hw) ∧
      try_take (nozdata_queue hw) = (none, nozdata_queue hw) ∧
      refill q1 last = ((f, true), nozdata_queue hw, f) ∧
      refill (nozdata_queue hw) f = ((f, false), nozdata_queue hw, f) := by
  refine ⟨rfl, rfl, rfl, rfl, { nozdata_queue hw with items := [f] }, ?_, ?_, rfl, rfl, rfl,
    rfl⟩
  · simp [send, nozdata_queue, xQueueCreate, ← hf]
  · intro g
    simp [send, nozdata_queue, xQueueCreate]

theorem nozdata_queue_capacity_one_witness :
    ∃ q1 : Queue,
      send (nozdata_queue sample_hw) [6, 4, 0, 0] = some q1 ∧
      (∀ g : Frame, send q1 g = none) ∧
      try_take q1 = (some [6, 4, 0, 0], nozdata_queue sample_hw) ∧
      try_take (nozdata_queue sample_hw) = (none, nozdata_queue sample_hw) ∧
      refill q1 [1, 1, 1, 1] = (([6, 4, 0, 0], true), nozdata_queue sample_hw, [6, 4, 0, 0]) ∧
      refill (nozdata_queue sample_hw) [6, 4, 0, 0] =
        (([6, 4, 0, 0], false), nozdata_queue sample_hw, [6, 4, 0, 0]) :=
  (nozdata_queue_capacity_one sample_hw sample_world [6, 4, 0, 0] [1, 1, 1, 1] rfl).2.2.2.2

/-! ## The dithering law -/

theorem length_filter_lt (n k : Nat) (hk : k ≤ n) :
    ((List.range n).filter fun r => decide (r < k)).length = k := by
  induction n with
  | zero =>
    have h0 : k = 0 := by omega
    simp [h0]
  | succ n ih =>
    rw [List.range_succ, List.filter_append, List.length_append]
    by_cases hkn : k ≤ n
    · rw [ih hkn]
      have hnk : ¬ n < k := by omega
      simp [hnk]
    · have hk1 : k = n + 1 := by omega
      subst hk1
      have hall : ((List.range n).filter fun r => decide (r < n + 1)) = List.range n := by
        rw [List.filter_eq_self]
        intro a ha
        have := List.mem_range.mp ha
        simp only [decide_eq_true_eq]
        omega
      simp [hall]

theorem length_filter_mod_lt (m t n : Nat) (ht : t ≤ m) :
    ((List.range (m * n)).filter fun r => decide (r % m < t)).length = t * n := by
  induction n with
  | zero => simp
  | succ n ih =>
    rw [Nat.mul_succ, List.range_add, List.filter_append, List.length_append, ih,
      List.filter_map, List.length_map]
    have hcongr : ((List.range m).filter ((fun r => decide (r % m < t)) ∘ fun x => m * n + x)) =
        (List.range m).filter fun r => decide (r < t) := by
      apply List.filter_congr
      intro x hx
      have hxm := List.mem_range.mp hx
      simp only [Function.comp_apply, Nat.mul_add_mod, Nat.mod_eq_of_lt hxm]
    rw [hcongr, length_filter_lt m t ht, Nat.mul_succ]

theorem length_filter_dither (v : Nat) :
    ((List.range 256).filter fun r => dither_fires v r).length = 255 - v % 256 := by
  have hcongr : ((List.range 256).filter fun r => dither_fires v r) =
      (List.range 256).filter fun r => decide (r < 255 - v % 256) := by
    apply List.filter_congr
    intro x hx
    have hx256 := List.mem_range.mp hx
    rw [Bool.eq_iff_iff, dither_fires_iff, Nat.mod_eq_of_lt hx256]
    simp
  rw [hcongr, length_filter_lt 256 _ (by omega)]

/-- C9: the colour dither test fires with chance `v1 / 256` where `v1 = 255 - v`: for every pixel
intensity `v` in `0..255`, the number of bytes `r` in `0..255` for which the test of the encoder
succeeds is exactly `255 - v` (none for white, 255 of the 256 for black), and the number does not
increase when `v` increases. -/
theorem dither_fires_count (v : Nat) (hv : v ≤ 255) :
    ((List.range 256).filter fun r => dither_fires v r).length = 255 - v ∧
    (∀ r : Nat, r < 256 → (dither_fires v r = true ↔ 255 - v > r)) ∧
    ((List.range 256).filter fun r => dither_fires 255 r).length = 0 ∧
    ((List.range 256).filter fun r => dither_fires 0 r).length = 255 ∧
    ∀ v2 : Nat, v ≤ v2 → v2 ≤ 255 →
      ((List.range 256).filter fun r => dither_fires v2 r).length
        ≤ ((List.range 256).filter fun r => dither_fires v r).length := by
  have hvm : v % 256 = v := Nat.mod_eq_of_lt (by omega)
  refine ⟨by rw [length_filter_dither, hvm], ?_, by rw [length_filter_dither],
    by rw [length_filter_dither], ?_⟩
  · intro r hr
    rw [dither_fires_iff, hvm, Nat.mod_eq_of_lt hr]
  · intro v2 h12 h2
    rw [length_filter_dither, length_filter_dither, hvm, Nat.mod_eq_of_lt (by omega)]
    omega

theorem dither_fires_count_witness :
    ((List.range 256).filter fun r => dither_fires 0x7f r).length = 255 - 0x7f :=
  (dither_fires_count 0x7f (by decide)).1

/-! ## The shipped pixel source -/

theorem ink_bearing_image_get_pixel (x : Int) (y : Nat) : ink_bearing image_get_pixel x y = true :=
  rfl

theorem black_draws_before_image_get_pixel (hw : Printspider) (pos : Int) (row y : Nat) :
    black_draws_before hw image_get_pixel pos row y =
      row * hw.PRINTSPIDER_BLACK_NOZZLES_IN_ROW + y := by
  have hcount : ∀ (x : Int) (n : Nat),
      (List.range n).countP (fun (y1 : Nat) => ink_bearing image_get_pixel x y1) = n := by
    intro x n
    simp [ink_bearing_image_get_pixel]
  simp only [black_draws_before, hcount]
  simp [List.map_const']

theorem foldl_ne_of_step_ne {α β : Type} (g : β → α → β) (z0 z : β) (l : List α) (hl : l ≠ [])
    (hg : ∀ b, ∀ a ∈ l, g b a ≠ z) : l.foldl g z0 ≠ z := by
  rcases List.eq_nil_or_concat l with h | ⟨l1, a, h⟩
  · exact absurd h hl
  · subst h
    rw [List.concat_eq_append, List.foldl_append]
    exact hg _ a (by simp)

theorem length_filter_odd (n : Nat) :
    ((List.range (2 * n)).filter fun r => r &&& 1 != 0).length = n := by
  induction n with
  | zero => simp
  | succ n ih =>
    have h2 : 2 * (n + 1) = 2 * n + 1 + 1 := by omega
    have hodd : (2 * n + 1) % 2 = 1 := by omega
    rw [h2, List.range_succ, List.range_succ, List.filter_append, List.filter_append,
      List.length_append, List.length_append, ih]
    simp [Nat.and_one_is_mod, hodd]

/-- C10: with the pixel source of the file (`image_get_pixel` returns `0x7f`), the colour encoder
fires nozzle `(y + PRINTSPIDER_COLOR_VERTICAL_OFFSET, c)` if and only if the low 8 bits of its
draw are below 128, and the monochrome encoder, for which every pixel is ink-bearing, fires nozzle
`(y, row)` if and only if the low bit of its draw (draw number `row *
PRINTSPIDER_BLACK_NOZZLES_IN_ROW + y` of the call) is 1; each test succeeds for exactly half of
the draws below any multiple of 256, respectively of 2; and the frame sent is the all-zero frame
when no draw fires, and only then, given that a buffer in which a nozzle bit has just been set
is not all-zero (`fire_sets_a_bit`). -/
theorem image_get_pixel_half_tone (hw : Printspider) (draws : Nat → Nat) (pos : Int) (w : World) :
    (∀ c y : Nat, c < 3 → y < hw.PRINTSPIDER_COLOR_NOZZLES_IN_ROW →
      (Event.fire_nozzle_color ((y : Int) + hw.PRINTSPIDER_COLOR_VERTICAL_OFFSET) c
          ∈ new_events w (send_image_row_color hw image_get_pixel draws pos w) ↔
        draws (w.rand_calls + c * hw.PRINTSPIDER_COLOR_NOZZLES_IN_ROW + y) % 256 < 128)) ∧
    (∀ row y : Nat, row < 2 → y < hw.PRINTSPIDER_BLACK_NOZZLES_IN_ROW →
      ink_bearing image_get_pixel (pos + (row : Int) * hw.PRINTSPIDER_BLACK_ROW_OFFSET) y = true ∧
      (Event.fire_nozzle_black y row
          ∈ new_events w (send_image_row_black hw image_get_pixel draws pos w) ↔
        draws (w.rand_calls + (row * hw.PRINTSPIDER_BLACK_NOZZLES_IN_ROW + y)) % 2 = 1)) ∧
    (∀ (x y c : Int) (n : Nat),
      ((List.range (256 * n)).filter fun r => dither_fires (image_get_pixel x y c) r).length
        = 128 * n) ∧
    (∀ n : Nat, ((List.range (2 * n)).filter fun r => r &&& 1 != 0).length = n) ∧
    ((new_events w (send_image_row_color hw image_get_pixel draws pos w)).filter
        Event.is_color_fire = [] →
      sent_frames (new_events w (send_image_row_color hw image_get_pixel draws pos w)) =
        [List.replicate hw.PRINTSPIDER_NOZDATA_SZ 0]) ∧
    ((new_events w (send_image_row_black hw image_get_pixel draws pos w)).filter
        Event.is_black_fire = [] →
      sent_frames (new_events w (send_image_row_black hw image_get_pixel draws pos w)) =
        [List.replicate hw.PRINTSPIDER_NOZDATA_SZ 0]) ∧
    (fire_sets_a_bit hw →
      sent_frames (new_events w (send_image_row_color hw image_get_pixel draws pos w)) =
        [List.replicate hw.PRINTSPIDER_NOZDATA_SZ 0] →
      (new_events w (send_image_row_color hw image_get_pixel draws pos w)).filter
        Event.is_color_fire = []) ∧
    (fire_sets_a_bit hw →
      sent_frames (new_events w (send_image_row_black hw image_get_pixel draws pos w)) =
        [List.replicate hw.PRINTSPIDER_NOZDATA_SZ 0] →
      (new_events w (send_image_row_black hw image_get_pixel draws pos w)).filter
        Event.is_black_fire = []) := by
  refine ⟨?_, ?_, ?_, ?_, ?_, ?_, ?_, ?_⟩
  · intro c y hc hy
    rw [fire_color_nat_mem_events, mem_color_fired, dither_fires_iff]
    have h7f : ∀ x y c, image_get_pixel x y c = 127 := fun _ _ _ => rfl
    rw [h7f]
    constructor
    · rintro ⟨_, _, h⟩
      omega
    · intro h
      exact ⟨hc, hy, by omega⟩
  · intro row y hrow hy
    refine ⟨ink_bearing_image_get_pixel _ _, ?_⟩
    rw [fire_black_nat_mem_events, mem_black_fired, black_draws_before_image_get_pixel]
    constructor
    · rintro ⟨_, _, _, h⟩
      exact h
    · intro h
      exact ⟨hrow, hy, ink_bearing_image_get_pixel _ _, h⟩
  · intro x y c n
    have hcongr : ((List.range (256 * n)).filter fun r =>
        dither_fires (image_get_pixel x y c) r) =
        (List.range (256 * n)).filter fun r => decide (r % 256 < 128) := by
      apply List.filter_congr
      intro r _
      rw [Bool.eq_iff_iff, dither_fires_iff]
      have h7f : image_get_pixel x y c = 127 := rfl
      rw [h7f]
      simp
    rw [hcongr, length_filter_mod_lt 256 128 n (by decide)]
  · intro n
    exact length_filter_odd n
  · intro h
    rw [color_fires_of_events, List.map_eq_nil_iff] at h
    rw [sent_frames_color, color_frame, h]
    rfl
  · intro h
    rw [black_fires_of_events, List.map_eq_nil_iff] at h
    rw [sent_frames_black, black_frame, h]
    rfl
  · intro hfire hzero
    rw [color_fires_of_events, List.map_eq_nil_iff]
    by_contra hne
    rw [sent_frames_color, color_frame] at hzero
    refine foldl_ne_of_step_ne _ _ _ _ hne ?_ (List.cons.inj hzero).1
    rintro b ⟨c, y⟩ hm
    rw [mem_color_fired] at hm
    exact hfire.1 b c y hm.1 hm.2.1
  · intro hfire hzero
    rw [black_fires_of_events, List.map_eq_nil_iff]
    by_contra hne
    rw [sent_frames_black, black_frame] at hzero
    refine foldl_ne_of_step_ne _ _ _ _ hne ?_ (List.cons.inj hzero).1
    rintro b ⟨row, y⟩ hm
    rw [mem_black_fired] at hm
    exact hfire.2 b row y hm.1 hm.2.1

theorem or_two_pow_ne_zero (a k : Nat) : a ||| 2 ^ k ≠ 0 := by
  intro h
  have ht := congrArg (fun n => n.testBit k) h
  simp [Nat.testBit_or, Nat.testBit_two_pow_self] at ht

theorem modify_or_ne_zeros (f : Frame) (k i : Nat) (hi : i < 4) :
    f.modify (fun b => b ||| 2 ^ k) i ≠ [0, 0, 0, 0] := by
  intro heq
  have hget := congrArg (fun l => l[i]?) heq
  simp only [List.getElem?_modify_eq] at hget
  have hz : ([0, 0, 0, 0] : List Nat)[i]? = some 0 := by
    interval_cases i <;> rfl
  rw [hz] at hget
  cases hfi : f[i]? with
  | none => simp [hfi] at hget
  | some a =>
    rw [hfi] at hget
    exact or_two_pow_ne_zero a k (Option.some.inj hget)

theorem sample_hw_fire_sets_a_bit : fire_sets_a_bit sample_hw :=
  ⟨fun f c _ hc _ => modify_or_ne_zeros f _ c (by omega),
    fun f row _ hrow _ => modify_or_ne_zeros f _ row (by omega)⟩

theorem image_get_pixel_half_tone_witness :
    (Event.fire_nozzle_color 2 2 ∈ new_events sample_world
        (send_image_row_color sample_hw image_get_pixel (fun k => 100 * k) 0 sample_world) ↔
      100 * (0 + 2 * 2 + 1) % 256 < 128) ∧
    (Event.fire_nozzle_black 2 1 ∈ new_events sample_world
        (send_image_row_black sample_hw image_get_pixel (fun k => k) 0 sample_world) ↔
      (0 + (1 * 3 + 2)) % 2 = 1) ∧
    (sent_frames (new_events sample_world
        (send_image_row_color sample_hw image_get_pixel (fun _ => 200) 0 sample_world)) =
          [[0, 0, 0, 0]] →
      (new_events sample_world
        (send_image_row_color sample_hw image_get_pixel (fun _ => 200) 0 sample_world)).filter
          Event.is_color_fire = []) ∧
    (sent_frames (new_events sample_world
        (send_image_row_black sample_hw image_get_pixel (fun _ => 200) 0 sample_world)) =
          [[0, 0, 0, 0]] →
      (new_events sample_world
        (send_image_row_black sample_hw image_get_pixel (fun _ => 200) 0 sample_world)).filter
          Event.is_black_fire = []) :=
  ⟨(image_get_pixel_half_tone sample_hw (fun k => 100 * k) 0 sample_world).1 2 1
      (by decide) (by decide),
    ((image_get_pixel_half_tone sample_hw (fun k => k) 0 sample_world).2.1 1 2
      (by decide) (by decide)).2,
    (image_get_pixel_half_tone sample_hw (fun _ => 200) 0 sample_world).2.2.2.2.2.2.1
      sample_hw_fire_sets_a_bit,
    (image_get_pixel_half_tone sample_hw (fun _ => 200) 0 sample_world).2.2.2.2.2.2.2
      sample_hw_fire_sets_a_bit⟩

end PrintSpider
